import Mathlib

/-!
Shallow embedding of `src/gcp/check-project-names.py`, a batch checker for
GCP project-identifier availability: it loads a wordlist, validates each
candidate against the naming rule, performs one remote lookup per valid
candidate, and prints a classification and a summary.

Strings are modelled as Lean `String` (a list of characters); the ASCII
character-class predicates `Char.isAlpha` / `Char.isAlphanum` embed the
Python predicates `str.isalpha` / `str.isalnum` on the ASCII fragment the
script exercises, and `Char.toLower` embeds `str.lower` per character.
The remote service is modelled as an oracle mapping each queried identifier
to a lookup outcome; printing is modelled as an ordered list of output
events carrying the data interpolated into each printed line.
-/

/-- Outcome of one remote `get_project` call: either it succeeds, or it
raises an exception that may carry an HTTP-like `status` attribute
(`none` models an exception without a `status` attribute). -/
inductive LookupOutcome where
  | success
  | failure (status : Option Nat)
  deriving DecidableEq

/-- Embedding of `project_exists` (lines 47-60): returns `true` on a
successful lookup; on an exception with status 404 or 403 returns `false`
silently; on any other exception logs and returns `false`.  The first
component is the returned boolean, the second records whether the
unexpected-error message was printed. -/
def project_exists (outcome : LookupOutcome) : Bool × Bool :=
  match outcome with
  | .success => (true, false)
  | .failure (some st) =>
      if st = 404 || st = 403 then (false, false) else (false, true)
  | .failure none => (false, true)

/-- Embedding of Python `str.strip()` as exercised by the script:
drop whitespace characters from both ends. -/
def pyStrip (s : String) : String :=
  String.mk (((s.data.dropWhile Char.isWhitespace).reverse.dropWhile
    Char.isWhitespace).reverse)

/-- Embedding of Python `str.startswith(pre)`. -/
def pyStartsWith (pre s : String) : Bool := List.isPrefixOf pre.data s.data

/-- Splits a character list at newline characters; returns the first
line and the remaining lines. -/
def splitLinesAux : List Char → List Char × List (List Char)
  | [] => ([], [])
  | c :: rest =>
      let (cur, ls) := splitLinesAux rest
      if c = '\n' then ([], cur :: ls) else (c :: cur, ls)

/-- Embedding of iterating a text file line by line (Python `for line in f`):
the file content split at newlines.  (Python keeps the terminators and may
omit a final empty line; both differences are erased by the stripping and
blank-line filtering the loader applies.) -/
def splitLines (s : String) : List String :=
  let (cur, ls) := splitLinesAux s.data
  (cur :: ls).map String.mk

/-- Embedding of Python `str.lower()` on the ASCII range the script
exercises: lower-case each character. -/
def pyLower (s : String) : String := String.mk (s.data.map Char.toLower)

/-- Embedding of Python `str.isalnum()` on a character list: true iff the
string is non-empty and every character is alphanumeric (Python's
`"".isalnum()` is `False`). -/
def pyIsAlnum (l : List Char) : Bool := !l.isEmpty && l.all Char.isAlphanum

/-- Embedding of the validation expression on line 104:
`6 <= len(name) <= 30 and name.replace('-', '').isalnum() and name[0].isalpha()`,
as a total boolean function (`name[0]` rendered via pattern matching;
`validator_total` below shows the exception-aware reading agrees). -/
def isValidName (name : String) : Bool :=
  decide (6 ≤ name.data.length) && decide (name.data.length ≤ 30)
    && pyIsAlnum (name.data.filter (fun c => c != '-'))
    && (match name.data with
        | c :: _ => c.isAlpha
        | [] => false)

/-- Exception-aware embedding of the same line-104 expression with
Python's evaluation order: `name[0]` raises `IndexError` (modelled as
`none`) on an empty string, and the conjunction short-circuits left to
right, so the indexing is reached only after the length guard passed. -/
def pyValidateE (name : String) : Option Bool :=
  if 6 ≤ name.data.length ∧ name.data.length ≤ 30 then
    if pyIsAlnum (name.data.filter (fun c => c != '-')) then
      match name.data.head? with
      | some c => some c.isAlpha
      | none => none
    else some false
  else some false

/-- Embedding of `read_project_names` (lines 29-39), success path: the
list comprehension
`[line.strip() for line in f if line.strip() and not line.strip().startswith('#')]`
over the file's lines. -/
def read_project_names (lines : List String) : List String :=
  (lines.filter
      (fun line => !(pyStrip line).isEmpty && !(pyStartsWith "#" (pyStrip line)))).map
    pyStrip

/-- The loader as the spec words it: strip every line, keep the lines
that are non-empty and do not start with `#` after stripping, in order. -/
def specLoadLines (lines : List String) : List String :=
  (lines.map pyStrip).filter (fun l => !l.isEmpty && !(pyStartsWith "#" l))

/-- The naming rule as the spec words it: length between 6 and 30
inclusive, the string obtained by removing all hyphens is alphanumeric,
and the first character of the original string is an alphabetic letter. -/
def specValidIdentifier (name : String) : Prop :=
  6 ≤ name.data.length ∧ name.data.length ≤ 30
    ∧ (∀ c ∈ name.data.filter (fun c => c != '-'), c.isAlphanum = true)
    ∧ (∃ c, name.data.head? = some c ∧ c.isAlpha = true)

/-- One printed line of the script, carrying the data interpolated into
it (lines 79-135 of the source). -/
inductive Event where
  | banner
  | clientInitError
  | loadedCount (n : Nat) (fname : String)
  | fileNotFound (fname : String)
  | readError
  | noNames
  | checkingCount (n : Nat)
  | invalidLine (i total : Nat) (name : String)
  | itemLine (i total : Nat) (nameLower : String) (taken : Bool)
  | summaryLine (total avail taken : Nat)
  | availableList (names : List String)
  | noneAvailable
  deriving DecidableEq

/-- Outcome of opening and reading the wordlist file. -/
inductive FileOutcome where
  | found (content : String)
  | notFound
  | readError
  deriving DecidableEq

/-- Outcome of constructing the resource-manager client (line 85). -/
inductive InitOutcome where
  | ok
  | fail
  deriving DecidableEq

/-- Embedding of the candidate loop (lines 102-119): walks the loaded
names with their 1-based display index; an invalid name only prints an
`INVALID` line; a valid name is lower-cased, looked up once through the
oracle, printed, and appended to the matching accumulator.  Returns
`(available, taken, lookups, events)` where `lookups` is the ordered
trace of identifiers sent to the remote service. -/
def runLoop (lookup : String → LookupOutcome) (total : Nat) :
    Nat → List String → List String × List String × List String × List Event
  | _, [] => ([], [], [], [])
  | i, name :: rest =>
      let r := runLoop lookup total (i + 1) rest
      if isValidName name then
        let low := pyLower name
        let ex := (project_exists (lookup low)).1
        (if ex then r.1 else low :: r.1,
         if ex then low :: r.2.1 else r.2.1,
         low :: r.2.2.1,
         Event.itemLine i total low ex :: r.2.2.2)
      else
        (r.1, r.2.1, r.2.2.1, Event.invalidLine i total name :: r.2.2.2)

/-- Embedding of `main` (lines 62-135) after argument parsing, with the
environment made explicit: `init` is the client-construction outcome,
`file` the wordlist-read outcome, `wordlist` the file name, and `lookup`
the remote oracle.  Returns the process exit status and the ordered
output events.  `time.sleep` only delays and is not modelled. -/
def mainRun (init : InitOutcome) (file : FileOutcome) (wordlist : String)
    (lookup : String → LookupOutcome) : Nat × List Event :=
  match init with
  | .fail => (1, [.banner, .clientInitError])
  | .ok =>
      match file with
      | .notFound => (1, [.banner, .fileNotFound wordlist])
      | .readError => (1, [.banner, .readError])
      | .found content =>
          let names := read_project_names (splitLines content)
          if names.isEmpty then
            (0, [.banner, .loadedCount names.length wordlist, .noNames])
          else
            let r := runLoop lookup names.length 1 names
            let a := r.1
            let t := r.2.1
            (0,
             [Event.banner, Event.loadedCount names.length wordlist,
              Event.checkingCount names.length]
              ++ r.2.2.2
              ++ [Event.summaryLine names.length a.length t.length]
              ++ (if a.isEmpty then [Event.noneAvailable]
                  else [Event.availableList a]))

-- Auxiliary: `Char.toLower` is idempotent.
theorem toLower_toLower (c : Char) : c.toLower.toLower = c.toLower := by
  by_cases h : c.toNat ≥ 65 ∧ c.toNat ≤ 90
  · have hc : c = Char.ofNat c.toNat := (Char.ofNat_toNat c).symm
    rw [hc]
    obtain ⟨h1, h2⟩ := h
    interval_cases c.toNat <;> decide
  · have h1 : c.toLower = c := by
      unfold Char.toLower
      simp [h]
    rw [h1, h1]

/-- C9: normalization is idempotent: lowering an already lower-cased
candidate changes nothing. -/
theorem pyLower_idem (s : String) : pyLower (pyLower s) = pyLower s := by
  unfold pyLower
  congr 1
  induction s.data with
  | nil => rfl
  | cons c l ih => simp only [List.map_cons, toLower_toLower, ih]

/-- C1: the existence checker returns `true` exactly on a successful
lookup; a 404 (not found) or 403 (permission denied) failure yields
`false` without logging, and any other failure — with any other status,
or with no status attribute at all — is logged and also yields `false`,
so no lookup error ever propagates. -/
theorem project_exists_spec :
    (∀ o : LookupOutcome,
        ((project_exists o).1 = true ↔ o = LookupOutcome.success))
      ∧ project_exists (.failure (some 404)) = (false, false)
      ∧ project_exists (.failure (some 403)) = (false, false)
      ∧ (∀ st : Nat, st ≠ 404 → st ≠ 403 →
          project_exists (.failure (some st)) = (false, true))
      ∧ project_exists (.failure none) = (false, true) := by
  have hfst : ∀ st, (project_exists (LookupOutcome.failure st)).1 = false := by
    intro st
    cases st with
    | none => rfl
    | some v =>
        rcases Bool.eq_false_or_eq_true (decide (v = 404) || decide (v = 403)) with
          hc | hc <;> simp [project_exists, hc]
  refine ⟨?_, by decide, by decide, ?_, by decide⟩
  · intro o
    cases o with
    | success => simp [project_exists]
    | failure st => simp [hfst st]
  · intro st h1 h2
    simp [project_exists, h1, h2]

theorem project_exists_spec_witness :
    project_exists (.failure (some 500)) = (false, true) :=
  project_exists_spec.2.2.2.1 500 (by decide) (by decide)

/-- C10: the validation expression is total on all strings: with
Python's left-to-right short-circuit evaluation the `name[0]` access is
reached only when the length guard already passed, so no input — the
empty string included — raises, and the exception-aware reading agrees
everywhere with the total boolean validator. -/
theorem validator_total (name : String) :
    pyValidateE name = some (isValidName name) := by
  obtain ⟨l⟩ := name
  unfold pyValidateE isValidName
  by_cases h : 6 ≤ l.length ∧ l.length ≤ 30
  · rw [if_pos h]
    cases l with
    | nil => exact absurd h.1 (by simp)
    | cons c cs =>
        by_cases ha : pyIsAlnum ((c :: cs).filter (fun c => c != '-')) = true
        · rw [if_pos ha]
          simp only [ha, decide_eq_true h.1, decide_eq_true h.2, Bool.true_and,
            Bool.and_true]
          rfl
        · rw [if_neg ha]
          have ha' : pyIsAlnum ((c :: cs).filter (fun c => c != '-')) = false := by
            revert ha; cases pyIsAlnum ((c :: cs).filter (fun c => c != '-')) <;> simp
          simp only [ha', Bool.and_false, Bool.false_and]
  · rw [if_neg h]
    have hb : (decide (6 ≤ l.length) && decide (l.length ≤ 30)) = false := by
      rcases not_and_or.mp h with h1 | h1 <;> simp [h1]
    simp [hb]

-- Auxiliary: the boolean validator agrees with the spec's wording of the
-- naming rule.
theorem isValidName_iff (name : String) :
    isValidName name = true ↔ specValidIdentifier name := by
  obtain ⟨l⟩ := name
  unfold isValidName specValidIdentifier pyIsAlnum
  constructor
  · intro hv
    simp only [Bool.and_eq_true, decide_eq_true_eq] at hv
    obtain ⟨⟨⟨h6, h30⟩, hne, hall⟩, hhead⟩ := hv
    refine ⟨h6, h30, ?_, ?_⟩
    · intro c hc
      exact List.all_eq_true.mp hall c hc
    · cases l with
      | nil => simp at hhead
      | cons c cs => exact ⟨c, rfl, hhead⟩
  · rintro ⟨h6, h30, hall, c, hc, halpha⟩
    cases l with
    | nil => simp at hc
    | cons c0 cs =>
        have hc0 : c0 = c := by simpa using hc
        subst hc0
        have hnd : (c0 != '-') = true := by
          rcases eq_or_ne c0 '-' with he | he
          · subst he; exact absurd halpha (by decide)
          · simpa using he
        have hfil : List.filter (fun c => c != '-') (c0 :: cs)
            = c0 :: List.filter (fun c => c != '-') cs :=
          List.filter_cons_of_pos hnd
        simp only [Bool.and_eq_true, decide_eq_true_eq]
        refine ⟨⟨⟨h6, h30⟩, ?_, ?_⟩, halpha⟩
        · rw [hfil]; simp
        · exact List.all_eq_true.mpr hall

/-- C2: the validator accepts a candidate exactly when its length is
between 6 and 30 inclusive, the string with all hyphens removed is
alphanumeric, and the first character is an alphabetic letter; a
candidate whose first character is not a letter — such as `"123456"` —
is rejected, and every candidate of letters, digits and hyphens with
in-range length and a leading letter is accepted. -/
theorem validator_spec :
    (∀ name : String, (isValidName name = true ↔ specValidIdentifier name))
      ∧ isValidName "123456" = false
      ∧ (∀ name : String,
          name.data.all (fun c => c.isAlphanum || c == '-') = true →
          6 ≤ name.data.length → name.data.length ≤ 30 →
          (∃ c, name.data.head? = some c ∧ c.isAlpha = true) →
          isValidName name = true) := by
  refine ⟨isValidName_iff, by decide, ?_⟩
  intro name hall h6 h30 hex
  refine (isValidName_iff name).mpr ⟨h6, h30, ?_, hex⟩
  intro c hc
  obtain ⟨hcmem, hcnd⟩ := List.mem_filter.mp hc
  have := List.all_eq_true.mp hall c hcmem
  rcases Bool.or_eq_true_iff.mp this with h | h
  · exact h
  · exact absurd h (by simpa using hcnd)

theorem validator_spec_witness : isValidName "my-app-1" = true :=
  validator_spec.2.2 "my-app-1" (by decide) (by decide) (by decide)
    ⟨'m', by decide, by decide⟩

/-- C3: in every run the trace of remote lookups is exactly one lookup
per candidate that passes validation, in file order, each with the
lower-cased form of the candidate; validation is applied to the raw
form, and a candidate failing it is never sent to the remote service. -/
theorem lookup_trace_spec (lookup : String → LookupOutcome) (total i : Nat)
    (names : List String) :
    (runLoop lookup total i names).2.2.1
      = (names.filter isValidName).map pyLower := by
  induction names generalizing i with
  | nil => rfl
  | cons name rest ih =>
      rcases Bool.eq_false_or_eq_true (isValidName name) with h | h <;>
        simp [runLoop, h, ih]

-- Auxiliary: a boolean predicate splits a list's length into the lengths
-- of the satisfying and non-satisfying sublists.
theorem length_filter_partition (p : String → Bool) (l : List String) :
    (l.filter p).length + (l.filter (fun x => !p x)).length = l.length := by
  induction l with
  | nil => rfl
  | cons x xs ih =>
      rcases Bool.eq_false_or_eq_true (p x) with h | h <;>
        simp [h, ih, Nat.succ_eq_add_one] <;> omega

-- Auxiliary: the two accumulators of the loop together hold exactly the
-- candidates that passed validation.
theorem runLoop_counts (lookup : String → LookupOutcome) (total i : Nat)
    (names : List String) :
    (runLoop lookup total i names).1.length
        + (runLoop lookup total i names).2.1.length
      = (names.filter isValidName).length := by
  induction names generalizing i with
  | nil => rfl
  | cons name rest ih =>
      cases h : isValidName name with
      | false => simp [runLoop, h, ih]
      | true =>
          have ih' := ih (i + 1)
          cases hex : (project_exists (lookup (pyLower name))).1 <;>
            simp [runLoop, h, hex] <;> omega

/-- C4: every loaded candidate gets exactly one classification: the two
accumulators together hold exactly the valid candidates, the invalid
ones are in neither, and their counts partition the total, so
Invalid + Available + Taken = Total; the printed summary line carries the
loaded-candidate count and the two accumulator lengths. -/
theorem classification_partition :
    (∀ (lookup : String → LookupOutcome) (total i : Nat) (names : List String),
        (runLoop lookup total i names).1.length
            + (runLoop lookup total i names).2.1.length
          = (names.filter isValidName).length
        ∧ (names.filter (fun n => !isValidName n)).length
            + ((runLoop lookup total i names).1.length
                + (runLoop lookup total i names).2.1.length)
          = names.length)
      ∧ (∀ (lookup : String → LookupOutcome) (w content : String),
          (read_project_names (splitLines content)).isEmpty = false →
          Event.summaryLine (read_project_names (splitLines content)).length
              (runLoop lookup (read_project_names (splitLines content)).length 1
                (read_project_names (splitLines content))).1.length
              (runLoop lookup (read_project_names (splitLines content)).length 1
                (read_project_names (splitLines content))).2.1.length
            ∈ (mainRun .ok (.found content) w lookup).2) := by
  constructor
  · intro lookup total i names
    refine ⟨runLoop_counts lookup total i names, ?_⟩
    rw [runLoop_counts lookup total i names]
    have := length_filter_partition isValidName names
    omega
  · intro lookup w content h
    simp only [mainRun, h]
    simp [List.mem_append]

theorem classification_partition_witness :
    Event.summaryLine (read_project_names (splitLines "abcdef\n")).length
        (runLoop (fun _ => LookupOutcome.success)
          (read_project_names (splitLines "abcdef\n")).length 1
          (read_project_names (splitLines "abcdef\n"))).1.length
        (runLoop (fun _ => LookupOutcome.success)
          (read_project_names (splitLines "abcdef\n")).length 1
          (read_project_names (splitLines "abcdef\n"))).2.1.length
      ∈ (mainRun .ok (.found "abcdef\n") "project-names.txt"
          (fun _ => LookupOutcome.success)).2 :=
  classification_partition.2 (fun _ => LookupOutcome.success)
    "project-names.txt" "abcdef\n" (by decide)

/-- C5: the loader returns the file's lines in order, each stripped of
surrounding whitespace, dropping lines that are empty after stripping and
lines whose stripped form starts with `#`; on the file content
`"foo\n\n# comment\nbar\n"` it yields exactly `["foo", "bar"]`. -/
theorem loader_spec :
    (∀ lines : List String, read_project_names lines = specLoadLines lines)
      ∧ read_project_names (splitLines "foo\n\n# comment\nbar\n")
          = ["foo", "bar"] := by
  constructor
  · intro lines
    induction lines with
    | nil => rfl
    | cons l ls ih =>
        unfold read_project_names specLoadLines at *
        cases h : (!(pyStrip l).isEmpty && !(pyStartsWith "#" (pyStrip l))) <;>
          simp [h, ih]
  · decide

/-- C6: on the wordlist `["ab", "valid-name-1", "ANOTHERNAME"]` against a
backend where `valid-name-1` exists and `anothername` does not, the run
classifies `ab` as invalid, `valid-name-1` as taken and `anothername` as
available, and the summary reports Total=3, Available=1, Taken=1. -/
theorem end_to_end_spec :
    mainRun .ok (.found "ab\nvalid-name-1\nANOTHERNAME") "wl"
        (fun s => if s = "valid-name-1" then LookupOutcome.success
                  else LookupOutcome.failure (some 404))
      = (0,
         [.banner, .loadedCount 3 "wl", .checkingCount 3,
          .invalidLine 1 3 "ab",
          .itemLine 2 3 "valid-name-1" true,
          .itemLine 3 3 "anothername" false,
          .summaryLine 3 1 1,
          .availableList ["anothername"]]) := by
  decide

/-- C7: the exit status is 0 exactly on normal completion — client
initialized and wordlist readable — including the empty-wordlist run,
which prints the no-names message and no per-item output; only a missing
or unreadable wordlist or a failed client initialization exits
non-zero. -/
theorem exit_code_spec :
    (∀ (init : InitOutcome) (file : FileOutcome) (w : String)
        (lookup : String → LookupOutcome),
        ((mainRun init file w lookup).1 = 0 ↔
          init = InitOutcome.ok ∧ ∃ c, file = FileOutcome.found c))
      ∧ (∀ (w : String) (lookup : String → LookupOutcome) (content : String),
          read_project_names (splitLines content) = [] →
          mainRun .ok (.found content) w lookup
            = (0, [.banner, .loadedCount 0 w, .noNames])) := by
  constructor
  · intro init file w lookup
    cases init with
    | fail => simp [mainRun]
    | ok =>
        cases file with
        | notFound => simp [mainRun]
        | readError => simp [mainRun]
        | found c =>
            have h0 : (mainRun InitOutcome.ok (FileOutcome.found c) w lookup).1
                = 0 := by
              cases hb : (read_project_names (splitLines c)).isEmpty <;>
                simp [mainRun, hb]
            exact ⟨fun _ => ⟨rfl, c, rfl⟩, fun _ => h0⟩
  · intro w lookup content h
    simp [mainRun, h]

theorem exit_code_spec_witness :
    mainRun .ok (.found "") "project-names.txt" (fun _ => LookupOutcome.success)
      = (0, [.banner, .loadedCount 0 "project-names.txt", .noNames]) :=
  exit_code_spec.2 "project-names.txt" (fun _ => LookupOutcome.success) ""
    (by decide)

/-- C8: a missing wordlist file makes the run print the diagnostic
carrying the missing file's name and exit with status 1, and any other
read failure likewise prints a diagnostic and exits with status 1. -/
theorem missing_file_spec :
    ∀ (w : String) (lookup : String → LookupOutcome),
      mainRun .ok .notFound w lookup = (1, [.banner, .fileNotFound w])
        ∧ mainRun .ok .readError w lookup = (1, [.banner, .readError]) := by
  intro w lookup
  exact ⟨rfl, rfl⟩
